import Mathlib

/-!
Verification of the ARM mmap placement policy (arch/arm/mm/mmap.c).

The source file implements the virtual address-space gap allocator for
32-bit ARM: `arch_get_unmapped_area` (bottom-up), `arch_get_unmapped_area_topdown`
(top-down with bottom-up fallback), the layout chooser `arch_pick_mmap_layout`
with its helpers `mmap_is_legacy` and `mmap_base`, the `COLOUR_ALIGN` macro,
and the `/dev/mem` validators.

Machine integers are `unsigned long` on a 32-bit target; we model them as
`Nat` with explicit `% 2^32` exactly where the C arithmetic can wrap.
The external collaborators that are not part of this repository
(`vm_unmapped_area`, `find_vma`, `vm_start_gap`) are modelled from the
specification's IntervalIndex contract; each such definition carries a
doc comment starting with `Modelled from the spec:`.
-/

namespace Mmap

/-- Size of the `unsigned long` value space on the 32-bit target: 2^32. -/
def WORD : Nat := 2 ^ 32

/-- PAGE_SHIFT on ARM: 12. -/
def PAGE_SHIFT : Nat := 12

/-- PAGE_SIZE = 1 << PAGE_SHIFT = 4096. -/
def PAGE_SIZE : Nat := 4096

/-- SHMLBA on ARM: 4 * PAGE_SIZE = 16384, the cache-colouring granule. -/
def SHMLBA : Nat := 16384

/-- PAGE_MASK & (SHMLBA - 1) = 0xFFFFF000 & 0x3FFF = 0x3000: the colour bits
of an address, i.e. the bits selected by the alignment mask the two search
functions pass to the gap search when colour alignment is required. -/
def colourMask : Nat := 12288

/-- The C value `-ENOMEM` seen as an unsigned long: 2^32 - 12. -/
def ENOMEM_RET : Nat := WORD - 12

/-- The C value `-EINVAL` seen as an unsigned long: 2^32 - 22. -/
def EINVAL_RET : Nat := WORD - 22

/-- RLIM_INFINITY on a 32-bit target: ~0UL = 2^32 - 1. -/
def RLIM_INFINITY : Nat := WORD - 1

/-- MIN_GAP = 128*1024*1024UL (128 MiB), from the source macro. -/
def MIN_GAP : Nat := 128 * 1024 * 1024

/-- MAX_GAP = (TASK_SIZE)/6*5, from the source macro.  Note the C integer
division happens before the multiplication. -/
def MAX_GAP (task_size : Nat) : Nat := task_size / 6 * 5

/-- 32-bit wrapping subtraction: `a - b` as computed on `unsigned long`. -/
def sub32 (a b : Nat) : Nat := (a + (WORD - b % WORD)) % WORD

/-- PAGE_ALIGN(a) = (a + PAGE_SIZE - 1) & PAGE_MASK on a 32-bit unsigned long;
clearing the low 12 bits is division and remultiplication by PAGE_SIZE. -/
def PAGE_ALIGN (a : Nat) : Nat := ((a + (PAGE_SIZE - 1)) % WORD) / PAGE_SIZE * PAGE_SIZE

/-- COLOUR_ALIGN(addr,pgoff) = ((addr+SHMLBA-1) & ~(SHMLBA-1)) +
((pgoff << PAGE_SHIFT) & (SHMLBA-1)).  On the 32-bit target the first
summand is the wrapped sum with the low 14 bits cleared (division and
remultiplication by SHMLBA), and the second is `pgoff * PAGE_SIZE` reduced
modulo SHMLBA (masking by SHMLBA-1 = 2^14 - 1 is reduction mod 2^14, and
2^14 divides 2^32 so the inner 32-bit wrap is absorbed). -/
def COLOUR_ALIGN (addr pgoff : Nat) : Nat :=
  ((addr + (SHMLBA - 1)) % WORD) / SHMLBA * SHMLBA + (pgoff * PAGE_SIZE) % SHMLBA

/-- One mapped region of the owning address space: the interval
[vm_start, vm_end). -/
structure vm_area_struct where
  vm_start : Nat
  vm_end : Nat

/-- Modelled from the spec: `vm_start_gap` is the region's start adjusted by
the one-page guard gap that every placement must respect before the next
higher region (the "start gap").  The kernel function is not part of this
repository. -/
def vm_start_gap (v : vm_area_struct) : Nat := v.vm_start - PAGE_SIZE

/-- Modelled from the spec: `find_vma(mm, addr)` returns the first region,
in ascending start order, that contains or follows `addr` (the first region
whose `vm_end` lies above `addr`).  The kernel function is not part of this
repository; the region list stands for the IntervalIndex collaborator. -/
def find_vma (rs : List vm_area_struct) (addr : Nat) : Option vm_area_struct :=
  rs.find? (fun r => decide (addr < r.vm_end))

/-- A candidate interval [a, a+len) fits the region set: for every region it
either lies entirely at or above the region's end, or it ends at or below the
region's guard-adjusted start. -/
def fitsB (rs : List vm_area_struct) (a len : Nat) : Bool :=
  rs.all (fun r => decide (r.vm_end ≤ a) || decide (a + len ≤ vm_start_gap r))

/-- The alignment unit selected by a gap-search alignment mask: pages when
the mask is 0, SHMLBA when the mask is the colour mask. -/
def alignUnit (mask : Nat) : Nat := mask + PAGE_SIZE

/-- Modelled from the spec: round a candidate gap start up to the least
address at or above `c` that honours the alignment mask/offset, i.e. is
congruent to `off` modulo the alignment unit. -/
def colourAdjustUp (mask off c : Nat) : Nat :=
  c + (off % alignUnit mask + (alignUnit mask - c % alignUnit mask)) % alignUnit mask

/-- Modelled from the spec: round a candidate address down to the greatest
address at or below `c` that is congruent to `off` modulo the alignment
unit. -/
def colourAdjustDown (mask off c : Nat) : Nat :=
  c - (c % alignUnit mask + (alignUnit mask - off % alignUnit mask)) % alignUnit mask

/-- An address is a valid placement for the window [low, high): at or above
`low`, ending at or below `high`, and fitting the region set. -/
def validB (low high len : Nat) (rs : List vm_area_struct) (a : Nat) : Bool :=
  decide (low ≤ a) && decide (a + len ≤ high) && fitsB rs a len

/-- Candidate gap starts for a bottom-up search: the low limit and each
region end (raised to the low limit), each rounded up to the alignment
class. -/
def upCandidates (low mask off : Nat) (rs : List vm_area_struct) : List Nat :=
  (low :: rs.map (fun r => max r.vm_end low)).map (colourAdjustUp mask off)

/-- Modelled from the spec: the bottom-up `vm_unmapped_area` collaborator
(IntervalIndex `lowest_gap`): the lowest address in [low, high) at which a
`len`-sized gap honouring the alignment mask/offset and the guard gaps
exists, or -ENOMEM. -/
def lowest_gap (low high len mask off : Nat) (rs : List vm_area_struct) : Nat :=
  match ((upCandidates low mask off rs).filter (validB low high len rs)).min? with
  | some a => a
  | none => ENOMEM_RET

/-- Candidate placements for a top-down search: below the high limit and
below each region's guard-adjusted start (capped at the high limit), the
highest alignment-class address leaving room for `len` bytes. -/
def downCandidates (high len mask off : Nat) (rs : List vm_area_struct) : List Nat :=
  (high :: rs.map (fun r => min (vm_start_gap r) high)).filterMap
    (fun e => if len ≤ e then some (colourAdjustDown mask off (e - len)) else none)

/-- Modelled from the spec: the top-down `vm_unmapped_area` collaborator
(IntervalIndex `highest_gap`): the highest address in [low, high) at which a
`len`-sized gap honouring the alignment mask/offset and the guard gaps
exists, or -ENOMEM. -/
def highest_gap (low high len mask off : Nat) (rs : List vm_area_struct) : Nat :=
  match ((downCandidates high len mask off rs).filter (validB low high len rs)).max? with
  | some a => a
  | none => ENOMEM_RET

/-- Region list well-formedness used as a hypothesis: sorted and disjoint
(each region's end at or below every later region's start). -/
def sortedDisjB : List vm_area_struct → Bool
  | [] => true
  | r :: t => t.all (fun s => decide (r.vm_end ≤ s.vm_start)) && sortedDisjB t

/-- The per-process mmap state the source reads from `current->mm`. -/
structure mm_struct where
  mmap_base : Nat
  regions : List vm_area_struct

/-- The compile-time and global parameters the source reads: TASK_SIZE,
mmap_min_addr, FIRST_USER_ADDRESS and TASK_UNMAPPED_BASE. -/
structure KernelCtx where
  task_size : Nat
  mmap_min_addr : Nat
  first_user_address : Nat
  task_unmapped_base : Nat

/-- One placement request: file backing, hint address, length, page offset
and the MAP_FIXED / MAP_SHARED flag bits. -/
structure MapRequest where
  file : Bool
  addr : Nat
  len : Nat
  pgoff : Nat
  mapFixed : Bool
  mapShared : Bool

/-- do_align = aliasing && (filp || (flags & MAP_SHARED)). -/
def do_align_of (aliasing : Bool) (req : MapRequest) : Bool :=
  aliasing && (req.file || req.mapShared)

/-- info.align_mask = do_align ? (PAGE_MASK & (SHMLBA - 1)) : 0. -/
def maskOf (doAlign : Bool) : Nat := if doAlign then colourMask else 0

/-- info.align_offset = pgoff << PAGE_SHIFT, on the 32-bit target. -/
def offOf (req : MapRequest) : Nat := req.pgoff * PAGE_SIZE % WORD

/-- The MAP_FIXED validation: aliasing && flags & MAP_SHARED &&
(addr - (pgoff << PAGE_SHIFT)) & (SHMLBA - 1); the 32-bit wrapped
difference masked by SHMLBA-1 is its residue mod SHMLBA. -/
def fixedBadB (aliasing : Bool) (req : MapRequest) : Bool :=
  aliasing && req.mapShared && decide (sub32 req.addr (offOf req) % SHMLBA ≠ 0)

/-- The aligned hint: COLOUR_ALIGN(addr, pgoff) when colour alignment is
needed, else PAGE_ALIGN(addr). -/
def alignedHint (doAlign : Bool) (req : MapRequest) : Nat :=
  if doAlign then COLOUR_ALIGN req.addr req.pgoff else PAGE_ALIGN req.addr

/-- The hint acceptance test: TASK_SIZE - len >= addr && addr >= mmap_min_addr
&& (!vma || addr + len <= vm_start_gap(vma)). -/
def hintOK (ctx : KernelCtx) (rs : List vm_area_struct) (len a : Nat) : Bool :=
  decide (a ≤ ctx.task_size - len) && decide (ctx.mmap_min_addr ≤ a) &&
    (find_vma rs a).all (fun v => decide (a + len ≤ vm_start_gap v))

/-- The bottom-up gap search issued by arch_get_unmapped_area:
low_limit = max(mm->mmap_base, mmap_min_addr), high_limit = TASK_SIZE. -/
def bottomup_area_search (ctx : KernelCtx) (mm : mm_struct) (len mask off : Nat) : Nat :=
  lowest_gap (max mm.mmap_base ctx.mmap_min_addr) ctx.task_size len mask off mm.regions

/-- The top-down gap search issued by arch_get_unmapped_area_topdown:
low_limit = max(FIRST_USER_ADDRESS, mmap_min_addr), high_limit = mmap_base,
followed by the documented fallback: if the result has low bits set
(addr & ~PAGE_MASK), retry bottom-up over [mmap_base, TASK_SIZE). -/
def topdown_area_search (ctx : KernelCtx) (mm : mm_struct) (len mask off : Nat) : Nat :=
  let a := highest_gap (max ctx.first_user_address ctx.mmap_min_addr) mm.mmap_base
    len mask off mm.regions
  if a % PAGE_SIZE ≠ 0 then lowest_gap mm.mmap_base ctx.task_size len mask off mm.regions
  else a

/-- arch_get_unmapped_area: MAP_FIXED enforcement, then the length
precondition, then the hint path, then the bottom-up search. -/
def arch_get_unmapped_area (ctx : KernelCtx) (aliasing : Bool) (mm : mm_struct)
    (req : MapRequest) : Nat :=
  let doAlign := do_align_of aliasing req
  if req.mapFixed = true then
    if fixedBadB aliasing req = true then EINVAL_RET else req.addr
  else if ctx.task_size - ctx.mmap_min_addr < req.len then ENOMEM_RET
  else if req.addr ≠ 0 ∧ hintOK ctx mm.regions req.len (alignedHint doAlign req) = true then
    alignedHint doAlign req
  else
    bottomup_area_search ctx mm req.len (maskOf doAlign) (offOf req)

/-- arch_get_unmapped_area_topdown: the length precondition, then MAP_FIXED
enforcement, then the hint path, then the top-down search with its
bottom-up fallback. -/
def arch_get_unmapped_area_topdown (ctx : KernelCtx) (aliasing : Bool) (mm : mm_struct)
    (req : MapRequest) : Nat :=
  let doAlign := do_align_of aliasing req
  if ctx.task_size - ctx.mmap_min_addr < req.len then ENOMEM_RET
  else if req.mapFixed = true then
    if fixedBadB aliasing req = true then EINVAL_RET else req.addr
  else if req.addr ≠ 0 ∧ hintOK ctx mm.regions req.len (alignedHint doAlign req) = true then
    alignedHint doAlign req
  else
    topdown_area_search ctx mm req.len (maskOf doAlign) (offOf req)

/-- mmap_is_legacy: personality bit, unlimited stack rlimit, or the
sysctl_legacy_va_layout switch. -/
def mmap_is_legacy (addrCompat : Bool) (rlimStack sysctlLegacy : Nat) : Bool :=
  addrCompat || decide (rlimStack = RLIM_INFINITY) || decide (sysctlLegacy ≠ 0)

/-- The stack-gap clamp inside mmap_base: raise to MIN_GAP, cap at MAX_GAP. -/
def clampGap (task_size s : Nat) : Nat :=
  if s < MIN_GAP then MIN_GAP else if MAX_GAP task_size < s then MAX_GAP task_size else s

/-- mmap_base(rnd) = PAGE_ALIGN(TASK_SIZE - gap - rnd) with gap the clamped
stack rlimit; the subtractions wrap on the 32-bit target. -/
def mmap_base (ctx : KernelCtx) (rlimStack rnd : Nat) : Nat :=
  PAGE_ALIGN (sub32 (sub32 ctx.task_size (clampGap ctx.task_size rlimStack)) rnd)

/-- The layout decision arch_pick_mmap_layout installs into the mm: the
base address and whether the top-down search function was selected. -/
structure LayoutChoice where
  base : Nat
  topdown : Bool

/-- arch_pick_mmap_layout, with `rnd` the already-computed random factor
(zero unless the process opted into randomization). -/
def arch_pick_mmap_layout (ctx : KernelCtx) (addrCompat : Bool)
    (rlimStack sysctlLegacy rnd : Nat) : LayoutChoice :=
  if mmap_is_legacy addrCompat rlimStack sysctlLegacy = true then
    ⟨(ctx.task_unmapped_base + rnd) % WORD, false⟩
  else
    ⟨mmap_base ctx rlimStack rnd, true⟩

/-- devmem_is_allowed(pfn): deny device-exclusive I/O memory, deny RAM,
allow the rest.  The two kernel predicates are abstract collaborators. -/
def devmem_is_allowed (iomem_excl : Nat → Bool) (page_ram : Nat → Bool) (pfn : Nat) : Bool :=
  if iomem_excl (pfn * PAGE_SIZE % WORD) then false
  else if !page_ram pfn then true
  else false

/-- Well-formedness of the global context and address space assumed by the
placement invariants: page-aligned security floor, mmap base between the
floor and TASK_SIZE and page-aligned, TASK_SIZE leaving the error-code
range free, and a sorted, disjoint, page-aligned region list. -/
def ctxWF (ctx : KernelCtx) (mm : mm_struct) : Prop :=
  ctx.mmap_min_addr % PAGE_SIZE = 0 ∧
  ctx.mmap_min_addr ≤ mm.mmap_base ∧
  mm.mmap_base % PAGE_SIZE = 0 ∧
  mm.mmap_base ≤ ctx.task_size ∧
  ctx.task_size + PAGE_SIZE ≤ WORD ∧
  sortedDisjB mm.regions = true ∧
  mm.regions.all (fun r =>
    decide (r.vm_start ≤ r.vm_end) && decide (r.vm_start % PAGE_SIZE = 0) &&
    decide (r.vm_end % PAGE_SIZE = 0)) = true

/-- The largest candidate gap floor at or below `a`: the maximum of `low`
and every region end not above `a`.  Used to exhibit a witness candidate in
the completeness argument for the bottom-up search. -/
def prevBound (low a : Nat) (rs : List vm_area_struct) : Nat :=
  (rs.filter (fun r => decide (r.vm_end ≤ a))).foldl (fun b r => max b r.vm_end) low

/-- The straightforward reading of the spec's MAX_GAP: five sixths of the
task size, as a single integer division. -/
def specMaxGap (task_size : Nat) : Nat := 5 * task_size / 6

/-- The spec's gap clamp, using specMaxGap. -/
def specClampGap (task_size s : Nat) : Nat := min (max s MIN_GAP) (specMaxGap task_size)

/-- The spec's reading of the top-down base computation. -/
def spec_mmap_base (ctx : KernelCtx) (rlimStack rnd : Nat) : Nat :=
  PAGE_ALIGN (ctx.task_size - specClampGap ctx.task_size rlimStack - rnd)

/-- Concrete context used by the witnesses and counterexamples: the common
3G/1G-split ARM TASK_SIZE, a 4 KiB security floor. -/
def cxCtx : KernelCtx := ⟨0xBF000000, 0x1000, 0x1000, 0x40000000⟩

/-- Concrete empty address space with a mid-range mmap base. -/
def cxMmEmpty : mm_struct := ⟨0x40000000, []⟩

/-- Concrete non-fixed request with no hint. -/
def cxReqPlain : MapRequest := ⟨false, 0, 0x2000, 0, false, false⟩

/-- Concrete MAP_FIXED request at a non-page-aligned address. -/
def cxReqFixedUnaligned : MapRequest := ⟨false, 0x1001, 0x1000, 0, true, false⟩

/-- Concrete MAP_FIXED file-backed private request at a colour-misaligned
address, under an aliasing cache. -/
def cxReqFixedFile : MapRequest := ⟨true, 0x1000, 0x1000, 0, true, false⟩

/-- Concrete MAP_FIXED request whose length exceeds TASK_SIZE - mmap_min_addr. -/
def cxReqFixedHuge : MapRequest := ⟨false, 0x8000, 0xBF000000, 0, true, false⟩

/-- Concrete non-fixed request whose length exceeds TASK_SIZE - mmap_min_addr. -/
def cxReqPlainHuge : MapRequest := ⟨false, 0, 0xBF000000, 0, false, false⟩

/-- Concrete small context for the fallback scenario: 1 MiB task size,
mmap base at 0x40000, everything below the base occupied. -/
def cxCtxSmall : KernelCtx := ⟨0x100000, 0x1000, 0x1000, 0⟩

/-- Concrete address space whose whole range below the base is occupied. -/
def cxMmFullLow : mm_struct := ⟨0x40000, [⟨0, 0x40000⟩]⟩

/-- Concrete address space with one small region above the security floor. -/
def cxMmOneRegion : mm_struct := ⟨0x100000, [⟨0x1000, 0x3000⟩]⟩

/-- Concrete request hinting at an address inside cxMmOneRegion's region. -/
def cxReqHintInside : MapRequest := ⟨false, 0x2000, 0x1000, 0, false, false⟩

/-- Concrete request hinting at a free address well above the region. -/
def cxReqHintFree : MapRequest := ⟨false, 0x200000, 0x1000, 0, false, false⟩

instance (ctx : KernelCtx) (mm : mm_struct) : Decidable (ctxWF ctx mm) := by
  unfold ctxWF
  infer_instance

/-- COLOUR_ALIGN always produces a page-aligned address: its first summand
is a multiple of SHMLBA and its second a multiple of PAGE_SIZE. -/
theorem COLOUR_ALIGN_page_aligned (a o : Nat) : COLOUR_ALIGN a o % PAGE_SIZE = 0 := by
  simp only [COLOUR_ALIGN, WORD, SHMLBA, PAGE_SIZE]
  omega

/-- PAGE_ALIGN always produces a page-aligned address. -/
theorem PAGE_ALIGN_page_aligned (a : Nat) : PAGE_ALIGN a % PAGE_SIZE = 0 := by
  simp only [PAGE_ALIGN, WORD, PAGE_SIZE]
  omega

/-- Claim C4 counterexample: COLOUR_ALIGN is not idempotent.  At address
0x1000 with page offset 1 the first alignment yields 0x5000, and realigning
0x5000 yields 0x9000. -/
theorem claim4_counterexample :
    COLOUR_ALIGN (COLOUR_ALIGN 0x1000 1) 1 ≠ COLOUR_ALIGN 0x1000 1 := by decide

/-- Claim C4, amended: absent unsigned overflow, COLOUR_ALIGN is idempotent
at (a, o) exactly when the colour offset (o * page_size) mod SHMLBA is zero;
with a nonzero colour offset, realigning always moves the address up. -/
theorem claim4_colour_align_idempotent (a o : Nat) (h : a + SHMLBA ≤ WORD) :
    COLOUR_ALIGN (COLOUR_ALIGN a o) o = COLOUR_ALIGN a o ↔ (o * PAGE_SIZE) % SHMLBA = 0 := by
  simp only [WORD, SHMLBA] at h
  simp only [COLOUR_ALIGN, WORD, SHMLBA, PAGE_SIZE]
  omega

/-- Witness for the amended C4: at address 0x1000 and page offset 4 the
colour offset is zero and alignment is idempotent. -/
theorem claim4_witness :
    COLOUR_ALIGN (COLOUR_ALIGN 0x1000 4) 4 = COLOUR_ALIGN 0x1000 4 :=
  (claim4_colour_align_idempotent 0x1000 4 (by decide)).mpr (by decide)

/-- Claim C10: absent unsigned overflow, COLOUR_ALIGN never moves the
address down, lands in the colour class (o * page_size) mod SHMLBA, and is
page-aligned (SHMLBA being a multiple of the page size). -/
theorem claim10_colour_align_properties (a o : Nat) (h : a + SHMLBA ≤ WORD) :
    a ≤ COLOUR_ALIGN a o ∧
    COLOUR_ALIGN a o % SHMLBA = (o * PAGE_SIZE) % SHMLBA ∧
    COLOUR_ALIGN a o % PAGE_SIZE = 0 := by
  simp only [WORD, SHMLBA] at h
  simp only [COLOUR_ALIGN, WORD, SHMLBA, PAGE_SIZE]
  omega

/-- Witness for C10 at address 0x1234 with page offset 3. -/
theorem claim10_witness :
    (0x1234 : Nat) ≤ COLOUR_ALIGN 0x1234 3 ∧
    COLOUR_ALIGN 0x1234 3 % SHMLBA = (3 * PAGE_SIZE) % SHMLBA ∧
    COLOUR_ALIGN 0x1234 3 % PAGE_SIZE = 0 :=
  claim10_colour_align_properties 0x1234 3 (by decide)

/-- Claim C7 counterexample: at the 3G/1G ARM TASK_SIZE (0xBF000000, not a
multiple of 6) with an over-large stack limit and randomization 1366, the
code's base (using MAX_GAP = TASK_SIZE/6*5, division first) differs from
the spec's page_align(task_size - clamp(s, MIN_GAP, 5*task_size/6) - r). -/
theorem claim7_counterexample :
    mmap_base cxCtx 0xF0000000 1366 ≠ spec_mmap_base cxCtx 0xF0000000 1366 := by decide

/-- Claim C7, amended: when the clamped gap plus the randomization fits
below the task size (no 32-bit underflow) and MIN_GAP does not exceed
MAX_GAP, the top-down base is page_align(task_size - gap - r) with gap the
stack limit clamped into [MIN_GAP, MAX_GAP], where MAX_GAP is the source's
task_size/6*5 (integer division before the multiplication by 5) rather than
an exact 5/6 of task_size. -/
theorem claim7_mmap_base (ctx : KernelCtx) (s r : Nat)
    (hfit : clampGap ctx.task_size s + r ≤ ctx.task_size)
    (hts : ctx.task_size < WORD)
    (hgap : MIN_GAP ≤ MAX_GAP ctx.task_size) :
    mmap_base ctx s r = PAGE_ALIGN (ctx.task_size - clampGap ctx.task_size s - r) ∧
    clampGap ctx.task_size s = min (max s MIN_GAP) (MAX_GAP ctx.task_size) := by
  constructor
  · have h1 : clampGap ctx.task_size s ≤ ctx.task_size := by omega
    simp only [mmap_base, sub32, WORD] at *
    have hc : clampGap ctx.task_size s % 2 ^ 32 = clampGap ctx.task_size s := by omega
    have hr : r % 2 ^ 32 = r := by omega
    rw [hc, hr]
    congr 1
    omega
  · simp only [clampGap] at *
    split_ifs <;> omega

/-- Witness for the amended C7: the real ARM parameters, a 16 MiB stack
limit and zero randomization. -/
theorem claim7_witness :
    mmap_base cxCtx 0x1000000 0 =
      PAGE_ALIGN (cxCtx.task_size - clampGap cxCtx.task_size 0x1000000 - 0) ∧
    clampGap cxCtx.task_size 0x1000000 = min (max 0x1000000 MIN_GAP) (MAX_GAP cxCtx.task_size) :=
  claim7_mmap_base cxCtx 0x1000000 0 (by decide) (by decide) (by decide)

/-- Claim C8: arch_pick_mmap_layout selects the legacy bottom-up layout
exactly when the compatibility personality bit is set, the stack limit is
RLIM_INFINITY, or the global legacy switch is nonzero; the installed base
is TASK_UNMAPPED_BASE + randomization in the legacy case and mmap_base's
value otherwise. -/
theorem claim8_pick_layout (ctx : KernelCtx) (compat : Bool) (rlim sysctl rnd : Nat) :
    ((arch_pick_mmap_layout ctx compat rlim sysctl rnd).topdown = false ↔
      (compat = true ∨ rlim = RLIM_INFINITY ∨ sysctl ≠ 0)) ∧
    ((arch_pick_mmap_layout ctx compat rlim sysctl rnd).base =
      if compat = true ∨ rlim = RLIM_INFINITY ∨ sysctl ≠ 0 then
        (ctx.task_unmapped_base + rnd) % WORD
      else mmap_base ctx rlim rnd) := by
  simp only [arch_pick_mmap_layout, mmap_is_legacy, Bool.or_eq_true, decide_eq_true_eq]
  split_ifs <;> simp_all

/-- Claim C9: devmem_is_allowed permits exactly the physical pages that are
neither claimed by an exclusive device I/O region nor ordinary RAM. -/
theorem claim9_devmem_is_allowed (excl ram : Nat → Bool) (pfn : Nat) :
    devmem_is_allowed excl ram pfn = (!excl (pfn * PAGE_SIZE % WORD) && !ram pfn) := by
  simp only [devmem_is_allowed]
  cases h1 : excl (pfn * PAGE_SIZE % WORD) <;> cases h2 : ram pfn <;> simp

/-- The alignment mask passed to the gap search is 0 or the colour mask. -/
theorem maskOf_cases (d : Bool) : maskOf d = 0 ∨ maskOf d = colourMask := by
  cases d <;> simp [maskOf]

/-- The alignment offset passed to the gap search is page-aligned. -/
theorem offOf_page (req : MapRequest) : offOf req % PAGE_SIZE = 0 := by
  simp only [offOf, WORD, PAGE_SIZE]
  omega

/-- Rounding a candidate up to its alignment class never moves it down. -/
theorem colourAdjustUp_ge (mask off c : Nat) : c ≤ colourAdjustUp mask off c :=
  Nat.le_add_right _ _

/-- Rounding up to the alignment class stays at or below any address of the
class at or above the candidate. -/
theorem colourAdjustUp_le (mask off c a : Nat) (hmask : mask = 0 ∨ mask = colourMask)
    (hca : c ≤ a) (hclass : a % alignUnit mask = off % alignUnit mask) :
    colourAdjustUp mask off c ≤ a := by
  rcases hmask with h | h <;> subst h <;>
    simp only [colourAdjustUp, alignUnit, colourMask, PAGE_SIZE] at * <;> omega

/-- Rounding a page-aligned candidate up to the class of a page-aligned
offset keeps it page-aligned. -/
theorem colourAdjustUp_page (mask off c : Nat) (hmask : mask = 0 ∨ mask = colourMask)
    (hc : c % PAGE_SIZE = 0) (hoff : off % PAGE_SIZE = 0) :
    colourAdjustUp mask off c % PAGE_SIZE = 0 := by
  rcases hmask with h | h <;> subst h <;>
    simp only [colourAdjustUp, alignUnit, colourMask, PAGE_SIZE] at * <;> omega

/-- fitsB unfolded to its pointwise meaning. -/
theorem fitsB_iff (rs : List vm_area_struct) (a len : Nat) :
    fitsB rs a len = true ↔ ∀ r ∈ rs, r.vm_end ≤ a ∨ a + len ≤ vm_start_gap r := by
  simp [fitsB, List.all_eq_true]

/-- The bottom-up search either fails or returns a candidate that passed
the validity filter. -/
theorem lowest_gap_cases (low high len mask off : Nat) (rs : List vm_area_struct) :
    lowest_gap low high len mask off rs = ENOMEM_RET ∨
    (validB low high len rs (lowest_gap low high len mask off rs) = true ∧
     lowest_gap low high len mask off rs ∈ upCandidates low mask off rs) := by
  unfold lowest_gap
  split
  · next m heq =>
    right
    have hmem := List.min?_mem (fun x y => min_choice x y) heq
    rw [List.mem_filter] at hmem
    exact ⟨hmem.2, hmem.1⟩
  · left; rfl

/-- The top-down search either fails or returns a candidate that passed
the validity filter. -/
theorem highest_gap_cases (low high len mask off : Nat) (rs : List vm_area_struct) :
    highest_gap low high len mask off rs = ENOMEM_RET ∨
    validB low high len rs (highest_gap low high len mask off rs) = true := by
  unfold highest_gap
  split
  · next m heq =>
    right
    have hmem := List.max?_mem (fun x y => max_choice x y) heq
    exact (List.mem_filter.mp hmem).2
  · left; rfl

/-- Every bottom-up candidate is page-aligned when the low limit, the
region ends and the alignment offset are. -/
theorem upCandidates_page (low mask off : Nat) (rs : List vm_area_struct)
    (hmask : mask = 0 ∨ mask = colourMask)
    (hlow : low % PAGE_SIZE = 0) (hoff : off % PAGE_SIZE = 0)
    (hregs : ∀ r ∈ rs, r.vm_end % PAGE_SIZE = 0) :
    ∀ c ∈ upCandidates low mask off rs, c % PAGE_SIZE = 0 := by
  intro c hc
  simp only [upCandidates, List.mem_map, List.mem_cons] at hc
  obtain ⟨b, hb, rfl⟩ := hc
  rcases hb with rfl | hb
  · exact colourAdjustUp_page _ _ _ hmask hlow hoff
  · obtain ⟨r, hr, rfl⟩ := hb
    have h1 := hregs r hr
    refine colourAdjustUp_page _ _ _ hmask ?_ hoff
    simp only [PAGE_SIZE] at h1 hlow ⊢
    omega

/-- If no region ends above the hint, everything fits at the hint. -/
theorem find_vma_none_fits (rs : List vm_area_struct) (a len : Nat)
    (h : find_vma rs a = none) : fitsB rs a len = true := by
  rw [fitsB_iff]
  intro r hr
  rw [find_vma, List.find?_eq_none] at h
  have := h r hr
  simp only [decide_eq_true_eq, Nat.not_lt] at this
  exact Or.inl this

/-- If the first region ending above the hint leaves the guard-adjusted
room, everything fits at the hint (using sortedness of the region list). -/
theorem find_vma_some_fits (rs : List vm_area_struct) (a len : Nat) (v : vm_area_struct)
    (hs : sortedDisjB rs = true)
    (hse : ∀ r ∈ rs, r.vm_start ≤ r.vm_end)
    (hfind : find_vma rs a = some v) (hgap : a + len ≤ vm_start_gap v) :
    fitsB rs a len = true := by
  induction rs with
  | nil => simp [find_vma] at hfind
  | cons r t ih =>
    simp only [sortedDisjB, Bool.and_eq_true, List.all_eq_true, decide_eq_true_eq] at hs
    rw [find_vma, List.find?_cons] at hfind
    by_cases hlt : a < r.vm_end
    · simp only [decide_eq_true hlt] at hfind
      have hv : r = v := by
        simpa using hfind
      subst hv
      rw [fitsB_iff]
      intro s hsmem
      rcases List.mem_cons.mp hsmem with rfl | hsmem
      · exact Or.inr hgap
      · right
        have h1 := hs.1 s hsmem
        have h2 := hse r (List.mem_cons_self r t)
        simp only [vm_start_gap] at hgap ⊢
        omega
    · simp only [decide_eq_false hlt] at hfind
      rw [fitsB_iff]
      intro s hsmem
      rcases List.mem_cons.mp hsmem with rfl | hsmem
      · exact Or.inl (by omega)
      · have := ih hs.2 (fun x hx => hse x (List.mem_cons_of_mem r hx)) (by rw [find_vma]; exact hfind)
        rw [fitsB_iff] at this
        exact this s hsmem

/-- Folding max of region ends stays below any common bound. -/
theorem foldl_max_le (l : List vm_area_struct) (init bound : Nat) (hi : init ≤ bound)
    (hl : ∀ r ∈ l, r.vm_end ≤ bound) :
    l.foldl (fun b r => max b r.vm_end) init ≤ bound := by
  induction l generalizing init with
  | nil => exact hi
  | cons r t ih =>
    refine ih (max init r.vm_end) ?_ (fun s hs => hl s (List.mem_cons_of_mem r hs))
    have := hl r (List.mem_cons_self r t)
    omega

/-- The initial value bounds the max fold from below. -/
theorem le_foldl_max_init (l : List vm_area_struct) (init : Nat) :
    init ≤ l.foldl (fun b r => max b r.vm_end) init := by
  induction l generalizing init with
  | nil => exact Nat.le_refl _
  | cons r t ih =>
    calc init ≤ max init r.vm_end := Nat.le_max_left _ _
      _ ≤ _ := ih (max init r.vm_end)

/-- Every member's end bounds the max fold from below. -/
theorem le_foldl_max_mem (l : List vm_area_struct) (init : Nat) (r : vm_area_struct)
    (hr : r ∈ l) : r.vm_end ≤ l.foldl (fun b r => max b r.vm_end) init := by
  induction l generalizing init with
  | nil => cases hr
  | cons s t ih =>
    rcases List.mem_cons.mp hr with rfl | hr'
    · calc r.vm_end ≤ max init r.vm_end := Nat.le_max_right _ _
        _ ≤ _ := le_foldl_max_init t _
    · exact ih (max init s.vm_end) hr'

/-- The max fold is the initial value or some member's end. -/
theorem foldl_max_mem (l : List vm_area_struct) (init : Nat) :
    l.foldl (fun b r => max b r.vm_end) init = init ∨
    ∃ r ∈ l, l.foldl (fun b r => max b r.vm_end) init = r.vm_end := by
  induction l generalizing init with
  | nil => exact Or.inl rfl
  | cons s t ih =>
    rcases ih (max init s.vm_end) with h | ⟨r, hr, h⟩
    · rcases max_choice init s.vm_end with hm | hm
      · exact Or.inl (by rw [List.foldl_cons, h, hm])
      · exact Or.inr ⟨s, List.mem_cons_self s t, by rw [List.foldl_cons, h, hm]⟩
    · exact Or.inr ⟨r, List.mem_cons_of_mem s hr, by rw [List.foldl_cons, h]⟩

/-- Completeness of the bottom-up search: whenever some address of the
alignment class is a valid placement in [low, high), the search does not
fail (it finds the candidate derived from the last region end at or below
that address). -/
theorem lowest_gap_complete (low high len mask off : Nat) (rs : List vm_area_struct)
    (a : Nat) (hmask : mask = 0 ∨ mask = colourMask)
    (hlow : low ≤ a) (hhigh : a + len ≤ high)
    (hfits : fitsB rs a len = true)
    (hclass : a % alignUnit mask = off % alignUnit mask)
    (hbound : high < ENOMEM_RET) :
    lowest_gap low high len mask off rs ≠ ENOMEM_RET := by
  have hb_le : prevBound low a rs ≤ a := by
    refine foldl_max_le _ low a hlow ?_
    intro r hr
    rw [List.mem_filter] at hr
    exact of_decide_eq_true hr.2
  have hlow_b : low ≤ prevBound low a rs := le_foldl_max_init _ _
  have hc_le : colourAdjustUp mask off (prevBound low a rs) ≤ a :=
    colourAdjustUp_le _ _ _ _ hmask hb_le hclass
  have hc_ge : prevBound low a rs ≤ colourAdjustUp mask off (prevBound low a rs) :=
    colourAdjustUp_ge _ _ _
  have hc_mem : colourAdjustUp mask off (prevBound low a rs) ∈ upCandidates low mask off rs := by
    simp only [upCandidates, List.mem_map, List.mem_cons]
    rcases foldl_max_mem (rs.filter (fun r => decide (r.vm_end ≤ a))) low with h | ⟨r, hr, h⟩
    · exact ⟨low, Or.inl rfl, by rw [prevBound, h]⟩
    · have hr' : r ∈ rs := (List.mem_filter.mp hr).1
      refine ⟨max r.vm_end low, Or.inr ?_, ?_⟩
      · exact ⟨r, hr', rfl⟩
      · have hbl : low ≤ r.vm_end := by
          have := le_foldl_max_init (rs.filter (fun r => decide (r.vm_end ≤ a))) low
          rw [h] at this
          exact this
        rw [prevBound, h]
        congr 1
        omega
  have hvalid : validB low high len rs (colourAdjustUp mask off (prevBound low a rs)) = true := by
    simp only [validB, Bool.and_eq_true, decide_eq_true_eq]
    refine ⟨⟨Nat.le_trans hlow_b hc_ge, by omega⟩, ?_⟩
    rw [fitsB_iff] at hfits ⊢
    intro r hr
    by_cases he : r.vm_end ≤ a
    · left
      have hmem : r ∈ rs.filter (fun r => decide (r.vm_end ≤ a)) :=
        List.mem_filter.mpr ⟨hr, decide_eq_true he⟩
      have := le_foldl_max_mem _ low r hmem
      exact Nat.le_trans this hc_ge
    · rcases hfits r hr with h1 | h2
      · exact absurd h1 he
      · right; omega
  have hfmem : colourAdjustUp mask off (prevBound low a rs) ∈
      (upCandidates low mask off rs).filter (validB low high len rs) :=
    List.mem_filter.mpr ⟨hc_mem, hvalid⟩
  unfold lowest_gap
  split
  · next m heq =>
    have hm := List.min?_mem (fun x y => min_choice x y) heq
    rw [List.mem_filter] at hm
    have := hm.2
    simp only [validB, Bool.and_eq_true, decide_eq_true_eq] at this
    intro hEq
    rw [hEq] at this
    omega
  · next heq =>
    rw [List.min?_eq_none_iff] at heq
    rw [heq] at hfmem
    cases hfmem

/-- Everything a successful bottom-up search guarantees: page alignment
(under page-aligned inputs), both window bounds, and fit. -/
theorem lowest_gap_success_props (low high len mask off : Nat) (rs : List vm_area_struct)
    (a : Nat) (hmask : mask = 0 ∨ mask = colourMask)
    (ha : lowest_gap low high len mask off rs = a) (hne : a ≠ ENOMEM_RET)
    (hlowpg : low % PAGE_SIZE = 0) (hoff : off % PAGE_SIZE = 0)
    (hregs : ∀ r ∈ rs, r.vm_end % PAGE_SIZE = 0) :
    a % PAGE_SIZE = 0 ∧ low ≤ a ∧ a + len ≤ high ∧ fitsB rs a len = true := by
  rcases lowest_gap_cases low high len mask off rs with h | ⟨hv, hmem⟩
  · rw [ha] at h
    exact absurd h hne
  · rw [ha] at hv hmem
    simp only [validB, Bool.and_eq_true, decide_eq_true_eq] at hv
    exact ⟨upCandidates_page _ _ _ _ hmask hlowpg hoff hregs a hmem, hv.1.1, hv.1.2, hv.2⟩

/-- Everything a successful top-down search guarantees: both window bounds
and fit. -/
theorem highest_gap_success_props (low high len mask off : Nat) (rs : List vm_area_struct)
    (a : Nat) (ha : highest_gap low high len mask off rs = a) (hne : a ≠ ENOMEM_RET) :
    low ≤ a ∧ a + len ≤ high ∧ fitsB rs a len = true := by
  rcases highest_gap_cases low high len mask off rs with h | hv
  · rw [ha] at h
    exact absurd h hne
  · rw [ha] at hv
    simp only [validB, Bool.and_eq_true, decide_eq_true_eq] at hv
    exact ⟨hv.1.1, hv.1.2, hv.2⟩

/-- Everything an accepted hint guarantees: the security floor, the task
size bound, and fit against the whole (sorted) region list. -/
theorem hint_accept_props (ctx : KernelCtx) (mm : mm_struct) (len h : Nat)
    (hsort : sortedDisjB mm.regions = true)
    (hse : ∀ r ∈ mm.regions, r.vm_start ≤ r.vm_end)
    (hok : hintOK ctx mm.regions len h = true)
    (hlen : len ≤ ctx.task_size) :
    ctx.mmap_min_addr ≤ h ∧ h + len ≤ ctx.task_size ∧ fitsB mm.regions h len = true := by
  simp only [hintOK, Bool.and_eq_true, decide_eq_true_eq] at hok
  obtain ⟨⟨h1, h2⟩, h3⟩ := hok
  refine ⟨h2, by omega, ?_⟩
  cases hv : find_vma mm.regions h with
  | none => exact find_vma_none_fits _ _ _ hv
  | some v =>
    rw [hv] at h3
    simp only [Option.all, decide_eq_true_eq] at h3
    exact find_vma_some_fits _ _ _ _ hsort hse hv h3

/-- The aligned hint is always page-aligned. -/
theorem alignedHint_page (doAlign : Bool) (req : MapRequest) :
    alignedHint doAlign req % PAGE_SIZE = 0 := by
  cases doAlign <;> simp only [alignedHint, if_true, if_false, Bool.false_eq_true]
  · exact PAGE_ALIGN_page_aligned _
  · exact COLOUR_ALIGN_page_aligned _ _

/-- Claim C1 counterexample: a MAP_FIXED request is answered with the
requested address itself, with no alignment, bounds or overlap check: the
fixed request at 0x1001 succeeds with the non-page-aligned 0x1001, below
the security floor 0x1000... (0x1001 is not a multiple of the page size). -/
theorem claim1_counterexample :
    arch_get_unmapped_area cxCtx false cxMmEmpty cxReqFixedUnaligned = 0x1001 ∧
    (0x1001 : Nat) ≠ ENOMEM_RET ∧ (0x1001 : Nat) ≠ EINVAL_RET ∧
    (0x1001 : Nat) % PAGE_SIZE ≠ 0 := by decide

/-- Claim C1, amended: for every non-FIXED request, under a well-formed
address space, every success address of either search function is
page-aligned, at or above mmap_min_addr, ends at or below TASK_SIZE, and
fits the region list (one-page guard gap before each higher region). -/
theorem claim1_placement_invariant (ctx : KernelCtx) (aliasing : Bool) (mm : mm_struct)
    (req : MapRequest) (hwf : ctxWF ctx mm) (hfix : req.mapFixed = false) :
    ∀ a, (a = arch_get_unmapped_area ctx aliasing mm req ∨
          a = arch_get_unmapped_area_topdown ctx aliasing mm req) →
      a ≠ ENOMEM_RET →
      a % PAGE_SIZE = 0 ∧ ctx.mmap_min_addr ≤ a ∧ a + req.len ≤ ctx.task_size ∧
      fitsB mm.regions a req.len = true := by
  obtain ⟨hmin, hminbase, hbase, hbts, hts, hsort, hregs⟩ := hwf
  have hregs' : ∀ r ∈ mm.regions,
      r.vm_start ≤ r.vm_end ∧ r.vm_start % PAGE_SIZE = 0 ∧ r.vm_end % PAGE_SIZE = 0 := by
    intro r hr
    have := List.all_eq_true.mp hregs r hr
    simp only [Bool.and_eq_true, decide_eq_true_eq] at this
    exact ⟨this.1.1, this.1.2, this.2⟩
  have hse : ∀ r ∈ mm.regions, r.vm_start ≤ r.vm_end := fun r hr => (hregs' r hr).1
  have hend : ∀ r ∈ mm.regions, r.vm_end % PAGE_SIZE = 0 := fun r hr => (hregs' r hr).2.2
  intro a ha hne
  rcases ha with ha | ha
  · simp only [arch_get_unmapped_area, hfix, Bool.false_eq_true, if_false] at ha
    split_ifs at ha with h2 h3
    · exact absurd ha hne
    · subst ha
      obtain ⟨hc1, hc2, hc3⟩ := hint_accept_props ctx mm req.len _ hsort hse h3.2 (by omega)
      exact ⟨alignedHint_page _ _, hc1, hc2, hc3⟩
    · unfold bottomup_area_search at ha
      obtain ⟨hpg, hlo, hhi, hfits⟩ :=
        lowest_gap_success_props _ _ _ _ _ _ _ (maskOf_cases _) ha.symm hne
          (by simp only [PAGE_SIZE] at hbase hmin ⊢; omega) (offOf_page req) hend
      refine ⟨hpg, ?_, hhi, hfits⟩
      calc ctx.mmap_min_addr ≤ max mm.mmap_base ctx.mmap_min_addr := Nat.le_max_right _ _
        _ ≤ a := hlo
  · simp only [arch_get_unmapped_area_topdown, hfix, Bool.false_eq_true, if_false] at ha
    split_ifs at ha with h2 h3
    · exact absurd ha hne
    · subst ha
      obtain ⟨hc1, hc2, hc3⟩ := hint_accept_props ctx mm req.len _ hsort hse h3.2 (by omega)
      exact ⟨alignedHint_page _ _, hc1, hc2, hc3⟩
    · simp only [topdown_area_search] at ha
      split_ifs at ha with hfb
      · rw [ha] at hne ⊢
        obtain ⟨hpg, hlo, hhi, hfits⟩ :=
          lowest_gap_success_props _ _ _ _ _ _ _ (maskOf_cases _) rfl hne
            hbase (offOf_page req) hend
        exact ⟨hpg, Nat.le_trans hminbase hlo, hhi, hfits⟩
      · push_neg at hfb
        obtain ⟨hlo, hhi, hfits⟩ := highest_gap_success_props _ _ _ _ _ _ _ ha.symm hne
        refine ⟨by rw [ha]; exact hfb, ?_, by omega, hfits⟩
        calc ctx.mmap_min_addr ≤ max ctx.first_user_address ctx.mmap_min_addr :=
              Nat.le_max_right _ _
          _ ≤ a := hlo

/-- Witness for the amended C1: on an empty mid-range address space the
bottom-up search places a 2-page request at the mmap base 0x40000000,
which satisfies all four invariants. -/
theorem claim1_witness :
    (0x40000000 : Nat) % PAGE_SIZE = 0 ∧
    cxCtx.mmap_min_addr ≤ 0x40000000 ∧
    (0x40000000 : Nat) + cxReqPlain.len ≤ cxCtx.task_size ∧
    fitsB cxMmEmpty.regions 0x40000000 cxReqPlain.len = true :=
  claim1_placement_invariant cxCtx false cxMmEmpty cxReqPlain (by decide) (by decide)
    0x40000000 (Or.inl (by decide)) (by decide)

/-- Claim C2: when a non-FIXED top-down request reaches the gap search and
the top-down search over [max(FIRST_USER_ADDRESS, mmap_min_addr), mmap_base)
fails (returns a value with low bits set), the call returns the bottom-up
search over the complementary [mmap_base, TASK_SIZE) window; whenever an
address of the alignment class fits in that upper window the call therefore
does not return -ENOMEM, and any success lies at or above mmap_base. -/
theorem claim2_topdown_fallback (ctx : KernelCtx) (aliasing : Bool) (mm : mm_struct)
    (req : MapRequest) (hwf : ctxWF ctx mm) (hfix : req.mapFixed = false)
    (hlen : ¬ (ctx.task_size - ctx.mmap_min_addr < req.len))
    (hhint : ¬ (req.addr ≠ 0 ∧ hintOK ctx mm.regions req.len
      (alignedHint (do_align_of aliasing req) req) = true))
    (hfail : highest_gap (max ctx.first_user_address ctx.mmap_min_addr) mm.mmap_base
      req.len (maskOf (do_align_of aliasing req)) (offOf req) mm.regions % PAGE_SIZE ≠ 0) :
    arch_get_unmapped_area_topdown ctx aliasing mm req =
      lowest_gap mm.mmap_base ctx.task_size req.len (maskOf (do_align_of aliasing req))
        (offOf req) mm.regions ∧
    (∀ b, mm.mmap_base ≤ b → b + req.len ≤ ctx.task_size →
      fitsB mm.regions b req.len = true →
      b % alignUnit (maskOf (do_align_of aliasing req)) =
        offOf req % alignUnit (maskOf (do_align_of aliasing req)) →
      arch_get_unmapped_area_topdown ctx aliasing mm req ≠ ENOMEM_RET) ∧
    (arch_get_unmapped_area_topdown ctx aliasing mm req ≠ ENOMEM_RET →
      mm.mmap_base ≤ arch_get_unmapped_area_topdown ctx aliasing mm req) := by
  obtain ⟨hmin, hminbase, hbase, hbts, hts, hsort, hregs⟩ := hwf
  have heq : arch_get_unmapped_area_topdown ctx aliasing mm req =
      lowest_gap mm.mmap_base ctx.task_size req.len (maskOf (do_align_of aliasing req))
        (offOf req) mm.regions := by
    simp only [arch_get_unmapped_area_topdown, hfix, Bool.false_eq_true, if_false,
      topdown_area_search]
    rw [if_neg hlen, if_neg hhint, if_pos hfail]
  refine ⟨heq, ?_, ?_⟩
  · intro b hb1 hb2 hb3 hb4
    rw [heq]
    refine lowest_gap_complete _ _ _ _ _ _ b (maskOf_cases _) hb1 hb2 hb3 hb4 ?_
    simp only [ENOMEM_RET, WORD, PAGE_SIZE] at hts ⊢
    omega
  · intro hsucc
    rw [heq] at hsucc ⊢
    rcases lowest_gap_cases mm.mmap_base ctx.task_size req.len
        (maskOf (do_align_of aliasing req)) (offOf req) mm.regions with h | ⟨hv, _⟩
    · exact absurd h hsucc
    · simp only [validB, Bool.and_eq_true, decide_eq_true_eq] at hv
      exact hv.1.1

/-- Witness for C2: task size 1 MiB, base 0x40000, everything below the
base occupied; the top-down search fails but the 2-page request still
succeeds via the fallback (at the base itself). -/
theorem claim2_witness :
    arch_get_unmapped_area_topdown cxCtxSmall false cxMmFullLow cxReqPlain ≠ ENOMEM_RET :=
  (claim2_topdown_fallback cxCtxSmall false cxMmFullLow cxReqPlain (by decide) (by decide)
    (by decide) (by decide) (by decide)).2.1 0x40000 (by decide) (by decide) (by decide)
    (by decide)

/-- Claim C3 counterexample: under an aliasing cache, a file-backed private
(MAP_FIXED) request needs colour alignment per the claim (filp set), its
address 0x1000 is not colour-congruent to page offset 0, yet the call
returns the address instead of failing with -EINVAL, because the code only
validates when MAP_SHARED is set. -/
theorem claim3_counterexample :
    arch_get_unmapped_area cxCtx true cxMmEmpty cxReqFixedFile = 0x1000 ∧
    (0x1000 : Nat) ≠ EINVAL_RET ∧
    do_align_of true cxReqFixedFile = true ∧
    sub32 cxReqFixedFile.addr (offOf cxReqFixedFile) % SHMLBA ≠ 0 := by decide

/-- Claim C3, amended: for every MAP_FIXED request whose length passes the
precondition, both variants agree and return -EINVAL exactly when the cache
aliases, the mapping is MAP_SHARED (file backing alone does not trigger the
check) and the address is not congruent to pgoff * page_size modulo SHMLBA;
otherwise they return the requested address unchanged, with no occupancy
check. -/
theorem claim3_fixed_requests (ctx : KernelCtx) (aliasing : Bool) (mm : mm_struct)
    (req : MapRequest) (hfix : req.mapFixed = true)
    (hlen : ¬ (ctx.task_size - ctx.mmap_min_addr < req.len)) :
    arch_get_unmapped_area ctx aliasing mm req =
      arch_get_unmapped_area_topdown ctx aliasing mm req ∧
    arch_get_unmapped_area ctx aliasing mm req =
      (if fixedBadB aliasing req = true then EINVAL_RET else req.addr) := by
  have h1 : arch_get_unmapped_area ctx aliasing mm req =
      (if fixedBadB aliasing req = true then EINVAL_RET else req.addr) := by
    simp only [arch_get_unmapped_area, hfix]
    rw [if_pos trivial]
  have h2 : arch_get_unmapped_area_topdown ctx aliasing mm req =
      (if fixedBadB aliasing req = true then EINVAL_RET else req.addr) := by
    simp only [arch_get_unmapped_area_topdown, hfix]
    rw [if_neg hlen, if_pos trivial]
  exact ⟨h1.trans h2.symm, h1⟩

/-- Witness for the amended C3: a fixed request without aliasing is passed
through unchanged by both variants. -/
theorem claim3_witness :
    arch_get_unmapped_area cxCtx false cxMmEmpty cxReqFixedUnaligned =
      arch_get_unmapped_area_topdown cxCtx false cxMmEmpty cxReqFixedUnaligned ∧
    arch_get_unmapped_area cxCtx false cxMmEmpty cxReqFixedUnaligned =
      (if fixedBadB false cxReqFixedUnaligned = true then EINVAL_RET
       else cxReqFixedUnaligned.addr) :=
  claim3_fixed_requests cxCtx false cxMmEmpty cxReqFixedUnaligned (by decide) (by decide)

/-- Claim C5 counterexample: a MAP_FIXED request whose length exceeds
TASK_SIZE - mmap_min_addr is returned its address by the bottom-up variant,
not -ENOMEM: there the MAP_FIXED branch runs before the length check. -/
theorem claim5_counterexample :
    cxCtx.task_size - cxCtx.mmap_min_addr < cxReqFixedHuge.len ∧
    arch_get_unmapped_area cxCtx false cxMmEmpty cxReqFixedHuge = 0x8000 ∧
    (0x8000 : Nat) ≠ ENOMEM_RET := by decide

/-- Claim C5, amended: an over-long request always fails with -ENOMEM in
the top-down variant (there the length check does come first), but in the
bottom-up variant only when MAP_FIXED is not set, because
arch_get_unmapped_area handles MAP_FIXED before checking the length. -/
theorem claim5_length_precondition (ctx : KernelCtx) (aliasing : Bool) (mm : mm_struct)
    (req : MapRequest) (hlen : ctx.task_size - ctx.mmap_min_addr < req.len) :
    arch_get_unmapped_area_topdown ctx aliasing mm req = ENOMEM_RET ∧
    (req.mapFixed = false → arch_get_unmapped_area ctx aliasing mm req = ENOMEM_RET) := by
  constructor
  · simp only [arch_get_unmapped_area_topdown]
    rw [if_pos hlen]
  · intro hfix
    simp only [arch_get_unmapped_area, hfix, Bool.false_eq_true, if_false]
    rw [if_pos hlen]

/-- Witness for the amended C5 at a concrete over-long non-fixed request. -/
theorem claim5_witness :
    arch_get_unmapped_area_topdown cxCtx false cxMmEmpty cxReqPlainHuge = ENOMEM_RET ∧
    (cxReqPlainHuge.mapFixed = false →
      arch_get_unmapped_area cxCtx false cxMmEmpty cxReqPlainHuge = ENOMEM_RET) :=
  claim5_length_precondition cxCtx false cxMmEmpty cxReqPlainHuge (by decide)

/-- Claim C6 counterexample: the hint 0x2000 lies inside the region
[0x1000, 0x3000), so no region starts at or after it, it fits under
TASK_SIZE and sits above mmap_min_addr — the claim's condition holds — yet
the code does not return the aligned hint 0x2000: find_vma selects the
region ending above the hint (here the region containing it), its
guard-adjusted start is below the hint, and the call falls through to the
search, returning 0x100000. -/
theorem claim6_counterexample :
    arch_get_unmapped_area cxCtx false cxMmOneRegion cxReqHintInside = 0x100000 ∧
    (0x100000 : Nat) ≠ 0x2000 ∧
    alignedHint (do_align_of false cxReqHintInside) cxReqHintInside = 0x2000 ∧
    cxMmOneRegion.regions.all (fun r => decide (r.vm_start < 0x2000)) = true ∧
    (0x2000 : Nat) ≤ cxCtx.task_size - cxReqHintInside.len ∧
    cxCtx.mmap_min_addr ≤ 0x2000 := by decide

/-- Claim C6, amended: for every non-FIXED request with a nonzero hint
whose length passes the precondition, both variants return the aligned hint
exactly when the hint test holds: the aligned hint h fits under TASK_SIZE,
sits at or above mmap_min_addr, and either no region ends above h or the
first region ending above h (find_vma's result, which may contain h) has a
guard-adjusted start at or above h + length; otherwise the respective gap
search runs. -/
theorem claim6_hint_path (ctx : KernelCtx) (aliasing : Bool) (mm : mm_struct)
    (req : MapRequest) (hfix : req.mapFixed = false) (haddr : req.addr ≠ 0)
    (hlen : ¬ (ctx.task_size - ctx.mmap_min_addr < req.len)) :
    arch_get_unmapped_area ctx aliasing mm req =
      (if hintOK ctx mm.regions req.len (alignedHint (do_align_of aliasing req) req) = true
       then alignedHint (do_align_of aliasing req) req
       else bottomup_area_search ctx mm req.len (maskOf (do_align_of aliasing req))
         (offOf req)) ∧
    arch_get_unmapped_area_topdown ctx aliasing mm req =
      (if hintOK ctx mm.regions req.len (alignedHint (do_align_of aliasing req) req) = true
       then alignedHint (do_align_of aliasing req) req
       else topdown_area_search ctx mm req.len (maskOf (do_align_of aliasing req))
         (offOf req)) := by
  constructor
  · simp only [arch_get_unmapped_area, hfix, Bool.false_eq_true, if_false]
    rw [if_neg hlen]
    by_cases hok : hintOK ctx mm.regions req.len
        (alignedHint (do_align_of aliasing req) req) = true
    · rw [if_pos ⟨haddr, hok⟩, if_pos hok]
    · rw [if_neg (fun h => hok h.2), if_neg hok]
  · simp only [arch_get_unmapped_area_topdown, hfix, Bool.false_eq_true, if_false]
    rw [if_neg hlen]
    by_cases hok : hintOK ctx mm.regions req.len
        (alignedHint (do_align_of aliasing req) req) = true
    · rw [if_pos ⟨haddr, hok⟩, if_pos hok]
    · rw [if_neg (fun h => hok h.2), if_neg hok]

/-- Witness for the amended C6: a hint at the free address 0x200000 passes
the hint test and is returned by the bottom-up variant. -/
theorem claim6_witness :
    arch_get_unmapped_area cxCtx false cxMmOneRegion cxReqHintFree =
      (if hintOK cxCtx cxMmOneRegion.regions cxReqHintFree.len
          (alignedHint (do_align_of false cxReqHintFree) cxReqHintFree) = true
       then alignedHint (do_align_of false cxReqHintFree) cxReqHintFree
       else bottomup_area_search cxCtx cxMmOneRegion cxReqHintFree.len
         (maskOf (do_align_of false cxReqHintFree)) (offOf cxReqHintFree)) :=
  (claim6_hint_path cxCtx false cxMmOneRegion cxReqHintFree (by decide) (by decide)
    (by decide)).1

end Mmap
